import Mathlib

set_option maxRecDepth 4000

/-!
Shallow embedding of the LeaseWatch extraction-and-normalization pipeline.

Numeric values flowing through the pipeline are modelled as rationals;
aggregate results that can be JavaScript sentinel values (`Infinity`,
`-Infinity`, `NaN`) are modelled by the `JsNum` type.  Fallible host
operations (browser navigation, DOM evaluation, filesystem writes) are
modelled as `Except`-valued fields of explicit environment records, and
the system clock is an explicit string parameter.
-/

namespace LeaseWatch

/-- Model of a JavaScript number as it appears in aggregate results:
either a finite rational or one of the IEEE sentinel values. -/
inductive JsNum where
  | finite (q : ℚ)
  | posInf
  | negInf
  | nan
deriving DecidableEq, Repr

/-- Collapse a `JsNum` known to be finite back to a rational
(sentinels map to 0; the pipeline only ever stores finite values). -/
def JsNum.toQ : JsNum → ℚ
  | .finite q => q
  | _ => 0

/-- JavaScript `<` on modelled numbers: `NaN` compares false with
everything, `-Infinity < q < Infinity` for finite `q`. -/
def jsLt : JsNum → JsNum → Bool
  | .finite a, .finite b => a < b
  | .finite _, .posInf => true
  | .negInf, .finite _ => true
  | .negInf, .posInf => true
  | _, _ => false

/-- Rational addition expressed on numerators/denominators
(kernel-computable spelling; `qadd_eq_add` proves it is `+`). -/
def qadd (a b : ℚ) : ℚ := Rat.divInt (a.num * b.den + b.num * a.den) (a.den * b.den)

/-- Rational multiplication on numerators/denominators
(`qmul_eq_mul` proves it is `*`). -/
def qmul (a b : ℚ) : ℚ := Rat.divInt (a.num * b.num) (a.den * b.den)

/-- Rational division on numerators/denominators
(`qdiv_eq_div` proves it is `/`, with the `x/0 = 0` convention). -/
def qdiv (a b : ℚ) : ℚ := Rat.divInt (a.num * b.den) (a.den * b.num)

/-- `list.reduce((a, b) => a + b, 0)`. -/
def qsum (l : List ℚ) : ℚ := l.foldl qadd 0

/-- `Math.round` on a finite value: round half toward positive infinity,
i.e. `⌊x + 1/2⌋` (`jsRound_eq_floor`). -/
def jsRound (q : ℚ) : ℤ := Rat.floor (qadd q (mkRat 1 2))

/-- `Math.round(x * 100) / 100`: round to two decimal places
(`mkRat n 100` is the exact rational `n / 100`). -/
def round2 (q : ℚ) : ℚ := mkRat (jsRound (qmul q 100)) 100

/-- Numeric value of a list of decimal digit characters. -/
def digitsToNat (cs : List Char) : ℕ :=
  cs.foldl (fun acc c => 10 * acc + (c.toNat - '0'.toNat)) 0

/-- `parseFloat` restricted to the digit/comma-free strings produced by the
cleaning steps: an optional integer part, an optional `.` followed by a
fractional digit run; everything after is ignored; `none` models `NaN`. -/
def parseFloatQ (cs : List Char) : Option ℚ :=
  let ip := cs.takeWhile Char.isDigit
  let rest := cs.drop ip.length
  match rest with
  | '.' :: r2 =>
    let fp := r2.takeWhile Char.isDigit
    if ip.isEmpty && fp.isEmpty then none
    else some (Rat.divInt (digitsToNat ip * 10 ^ fp.length + digitsToNat fp) (10 ^ fp.length))
  | _ => if ip.isEmpty then none else some ((digitsToNat ip : ℚ))

/-- Fuelled worker for `commaGroups`; every recursive step consumes at
least two characters, so the input length is always enough fuel. -/
def commaGroupsF : ℕ → List Char → List Char
  | 0, _ => []
  | fuel + 1, cs =>
    match cs with
    | ',' :: rest =>
      let ds := rest.takeWhile Char.isDigit
      if ds.isEmpty then []
      else ',' :: (ds ++ commaGroupsF fuel (rest.drop ds.length))
    | _ => []

/-- The `(?:,\d+)*` part of the numeric-token regexes: greedily consume
repeated groups of a comma followed by at least one digit. -/
def commaGroups (cs : List Char) : List Char :=
  commaGroupsF cs.length cs

/-- The substring matched by `/(\d+(?:,\d+)*(?:\.\d+)?)/` when the scan
position sits on the first digit of the input. -/
def numToken (cs : List Char) : List Char :=
  let ds := cs.takeWhile Char.isDigit
  let g := commaGroups (cs.drop ds.length)
  let afterG := cs.drop (ds.length + g.length)
  let fr : List Char :=
    match afterG with
    | '.' :: r2 =>
      let fs := r2.takeWhile Char.isDigit
      if fs.isEmpty then [] else '.' :: fs
    | _ => []
  ds ++ g ++ fr

/-- The substring matched by `/(\d+(?:,\d+)*)/` at the first digit. -/
def intToken (cs : List Char) : List Char :=
  let ds := cs.takeWhile Char.isDigit
  ds ++ commaGroups (cs.drop ds.length)

/-- `DataProcessor.parsePrice` cleaning step:
`priceString.replace(/[^0-9,.]/g, '')` keeps digits, commas and periods. -/
def priceClean (s : String) : List Char :=
  s.data.filter (fun c => c.isDigit || c == ',' || c == '.')

/-- `DataProcessor.parsePrice`.  Empty input yields 0; the input is cleaned
to digits/commas/periods; a `-` in the cleaned text triggers the range
branch (split, parse each part, `Math.min` over the non-`NaN` values);
otherwise the first numeric match, commas removed, is parsed. -/
def parsePrice (priceString : String) : JsNum :=
  if priceString = "" then .finite 0
  else
    let cleanPrice := priceClean priceString
    if cleanPrice.contains '-' then
      let parts := cleanPrice.splitOn '-'
      let prices := parts.filterMap (fun p => parseFloatQ (p.filter (fun c => !(c == ','))))
      match prices with
      | [] => .posInf
      | x :: xs => .finite (xs.foldl min x)
    else
      match cleanPrice.dropWhile (fun c => !c.isDigit) with
      | [] => .finite 0
      | cs =>
        match parseFloatQ ((numToken cs).filter (fun c => !(c == ','))) with
        | some q => .finite q
        | none => .nan

/-- `parsePrice` with the (always finite) result as a rational, as stored
into `FloorPlan.price` by the extractors. -/
def parsePriceQ (s : String) : ℚ := (parsePrice s).toQ

/-- `DataProcessor.parseSquareFootage`: first `/(\d+(?:,\d+)*)/` match,
commas stripped, `parseInt`; 0 when absent or empty input. -/
def parseSquareFootage (sqftString : String) : ℚ :=
  if sqftString = "" then 0
  else
    match sqftString.data.dropWhile (fun c => !c.isDigit) with
    | [] => 0
    | cs => (digitsToNat ((intToken cs).filter (fun c => !(c == ','))) : ℚ)

/-- Case-insensitive prefix test used by the token scanners. -/
def startsWithCI (cs : List Char) (pat : String) : Bool :=
  pat.data.isPrefixOf (cs.map Char.toLower)

/-- Substring containment (JavaScript `String.prototype.includes`). -/
def containsSub : List Char → List Char → Bool
  | [], pat => pat.isEmpty
  | c :: t, pat => if pat.isPrefixOf (c :: t) then true else containsSub t pat

/-- Scan for `/(\d+)\s*(beds?|bedrooms?|br)/i`: at each position starting
on a digit, take the digit run, skip whitespace, and test for a
`bed`/`br` token; the first success yields the digit run's value. -/
def bedScan : List Char → Option ℕ
  | [] => none
  | c :: rest =>
    if c.isDigit then
      let ds := (c :: rest).takeWhile Char.isDigit
      let after := ((c :: rest).drop ds.length).dropWhile Char.isWhitespace
      if startsWithCI after "bed" || startsWithCI after "br" then some (digitsToNat ds)
      else bedScan rest
    else bedScan rest

/-- `DataProcessor.parseBedrooms`. -/
def parseBedrooms (bedroomString : String) : ℚ :=
  if bedroomString = "" then 0
  else if containsSub (bedroomString.data.map Char.toLower) "studio".data then 0
  else
    match bedScan bedroomString.data with
    | some n => (n : ℚ)
    | none => 0

/-- Scan for `/(\d+\.5)\s*(baths?|bathrooms?|ba)/i`. -/
def bathDecScan : List Char → Option ℚ
  | [] => none
  | c :: rest =>
    if c.isDigit then
      let ds := (c :: rest).takeWhile Char.isDigit
      match (c :: rest).drop ds.length with
      | '.' :: '5' :: r2 =>
        if startsWithCI (r2.dropWhile Char.isWhitespace) "ba" then
          some (Rat.divInt (2 * (digitsToNat ds : ℤ) + 1) 2)
        else bathDecScan rest
      | _ => bathDecScan rest
    else bathDecScan rest

/-- Scan for `/(\d+)\s*(baths?|bathrooms?|ba)/i`. -/
def bathWholeScan : List Char → Option ℕ
  | [] => none
  | c :: rest =>
    if c.isDigit then
      let ds := (c :: rest).takeWhile Char.isDigit
      let after := ((c :: rest).drop ds.length).dropWhile Char.isWhitespace
      if startsWithCI after "ba" then some (digitsToNat ds)
      else bathWholeScan rest
    else bathWholeScan rest

/-- `DataProcessor.parseBathrooms`: decimal `N.5` match first, then the
whole-number match, else 0. -/
def parseBathrooms (bathroomString : String) : ℚ :=
  if bathroomString = "" then 0
  else
    match bathDecScan bathroomString.data with
    | some q => q
    | none =>
      match bathWholeScan bathroomString.data with
      | some n => (n : ℚ)
      | none => 0

/-- The `apartment | townhome | studio` union type. -/
inductive UnitType where
  | apartment
  | townhome
  | studio
deriving DecidableEq, Repr

/-- `DataProcessor.determineUnitType`. -/
def determineUnitType (name : String) (bathrooms : ℚ) : UnitType :=
  let lowerName := name.data.map Char.toLower
  if containsSub lowerName "studio".data then .studio
  else if containsSub lowerName "townhome".data || containsSub lowerName "townhouse".data then .townhome
  else if mkRat 5 2 < bathrooms then .townhome
  else .apartment

/-- `DataProcessor.calculatePricePerSqFt`. -/
def calculatePricePerSqFt (price sqft : ℚ) : ℚ :=
  if price ≤ 0 ∨ sqft ≤ 0 then 0 else round2 (qdiv price sqft)

/-- Fuelled worker for `collapseRuns`; every step consumes at least one
character, so the input length is always enough fuel. -/
def collapseRunsF (r : Char) : ℕ → List Char → List Char
  | 0, cs => cs
  | fuel + 1, cs =>
    match cs with
    | [] => []
    | c :: t =>
      if c.isWhitespace then r :: collapseRunsF r fuel (t.dropWhile Char.isWhitespace)
      else c :: collapseRunsF r fuel t

/-- `replace(/\s+/g, r)`: collapse each whitespace run to the single
character `r`. -/
def collapseRuns (r : Char) (cs : List Char) : List Char :=
  collapseRunsF r cs.length cs

/-- JavaScript `String.prototype.trim` on a character list. -/
def trimWs (cs : List Char) : List Char :=
  ((cs.dropWhile Char.isWhitespace).reverse.dropWhile Char.isWhitespace).reverse

/-- One ordered-alternation step of `(bed|bedroom|bath|bathroom|br|ba)`:
the first alternative whose text is a prefix wins, so `bedroom` and
`bathroom` are never selected; returns the consumed length. -/
def bbTokenLen (cs : List Char) : Option ℕ :=
  if startsWithCI cs "bed" then some 3
  else if startsWithCI cs "bath" then some 4
  else if startsWithCI cs "br" then some 2
  else if startsWithCI cs "ba" then some 2
  else none

/-- Length matched by `/\d+\s*(bed|bedroom|bath|bathroom|br|ba)\s*/i`
when anchored at the current position. -/
def matchBedBathAt (cs : List Char) : Option ℕ :=
  let ds := cs.takeWhile Char.isDigit
  if ds.isEmpty then none
  else
    let r1 := cs.drop ds.length
    let ws1 := r1.takeWhile Char.isWhitespace
    let r2 := r1.drop ws1.length
    match bbTokenLen r2 with
    | none => none
    | some k =>
      let ws2 := (r2.drop k).takeWhile Char.isWhitespace
      some (ds.length + ws1.length + k + ws2.length)

/-- Length matched by `/\d+,?\d*\s*sq\.?\s*ft\.?/i` anchored at the
current position. -/
def matchSqftAt (cs : List Char) : Option ℕ :=
  let ds := cs.takeWhile Char.isDigit
  if ds.isEmpty then none
  else
    let r1 := cs.drop ds.length
    let (commaLen, r2) := match r1 with
      | ',' :: t => (1, t)
      | _ => (0, r1)
    let ds2 := r2.takeWhile Char.isDigit
    let r3 := r2.drop ds2.length
    let ws1 := r3.takeWhile Char.isWhitespace
    let r4 := r3.drop ws1.length
    if startsWithCI r4 "sq" then
      let r5 := r4.drop 2
      let (dotLen, r6) := match r5 with
        | '.' :: t => (1, t)
        | _ => (0, r5)
      let ws2 := r6.takeWhile Char.isWhitespace
      let r7 := r6.drop ws2.length
      if startsWithCI r7 "ft" then
        let dot2 : ℕ := match r7.drop 2 with
          | '.' :: _ => 1
          | _ => 0
        some (ds.length + commaLen + ds2.length + ws1.length + 2 + dotLen + ws2.length + 2 + dot2)
      else none
    else none

/-- Length matched by `/from\s*\$[\d,]+/i` anchored at the current
position. -/
def matchFromAt (cs : List Char) : Option ℕ :=
  if startsWithCI cs "from" then
    let r1 := cs.drop 4
    let ws := r1.takeWhile Char.isWhitespace
    match r1.drop ws.length with
    | '$' :: t =>
      let dc := t.takeWhile (fun c => c.isDigit || c == ',')
      if dc.isEmpty then none else some (4 + ws.length + 1 + dc.length)
    | _ => none
  else none

/-- Length matched by `/view\s*\d*\s*apartments?/i` anchored at the
current position. -/
def matchViewAt (cs : List Char) : Option ℕ :=
  if startsWithCI cs "view" then
    let r1 := cs.drop 4
    let ws1 := r1.takeWhile Char.isWhitespace
    let r2 := r1.drop ws1.length
    let ds := r2.takeWhile Char.isDigit
    let r3 := r2.drop ds.length
    let ws2 := r3.takeWhile Char.isWhitespace
    let r4 := r3.drop ws2.length
    if startsWithCI r4 "apartment" then
      let sLen : ℕ := if startsWithCI (r4.drop 9) "s" then 1 else 0
      some (4 + ws1.length + ds.length + ws2.length + 9 + sLen)
    else none
  else none

/-- Global regex replacement with the empty string: repeatedly delete the
leftmost match and continue scanning after it (fuelled recursion; the
fuel is the input length, enough because every match consumes at least
one character). -/
def replaceAll (m : List Char → Option ℕ) : ℕ → List Char → List Char
  | 0, cs => cs
  | fuel + 1, cs =>
    match m cs with
    | some (k + 1) => replaceAll m fuel (cs.drop (k + 1))
    | _ =>
      match cs with
      | [] => []
      | c :: t => c :: replaceAll m fuel t

/-- `word.charAt(0).toUpperCase() + word.slice(1).toLowerCase()`. -/
def capitalizeWord : List Char → List Char
  | [] => []
  | c :: t => c.toUpper :: t.map Char.toLower

/-- `DataProcessor.cleanFloorPlanName`. -/
def cleanFloorPlanName (name : String) : String :=
  if name = "" then "Unknown Plan"
  else
    let c1 := trimWs (collapseRuns ' ' name.data)
    let c2 := replaceAll matchBedBathAt c1.length c1
    let c3 := replaceAll matchSqftAt c2.length c2
    let c4 := replaceAll matchFromAt c3.length c3
    let c5 := replaceAll matchViewAt c4.length c4
    let recased := List.intercalate [' '] ((c5.splitOn ' ').map capitalizeWord)
    let out := trimWs recased
    if out.isEmpty then "Unknown Plan" else String.mk out

/-- Exactly four digit characters at the head of the input
(the `\d{4}` year group; later characters are unconstrained). -/
def year4 : List Char → Option (List Char)
  | a :: b :: c :: d :: _ =>
    if a.isDigit && b.isDigit && c.isDigit && d.isDigit then some [a, b, c, d] else none
  | _ => none

/-- `\d{1,2}\/\d{4}` anchored at the current position, two digits
preferred (the greedy `{1,2}` quantifier). -/
def monthYear (r : List Char) : Option (List Char) :=
  (match r with
   | a :: b :: '/' :: t =>
     if a.isDigit && b.isDigit then (year4 t).map (fun y => a :: b :: '/' :: y) else none
   | _ => none) <|>
  (match r with
   | a :: '/' :: t =>
     if a.isDigit then (year4 t).map (fun y => a :: '/' :: y) else none
   | _ => none)

/-- `(\d{1,2}\/\d{1,2}\/\d{4})` anchored at the current position. -/
def matchDateAt (cs : List Char) : Option (List Char) :=
  (match cs with
   | a :: b :: '/' :: t =>
     if a.isDigit && b.isDigit then (monthYear t).map (fun m => a :: b :: '/' :: m) else none
   | _ => none) <|>
  (match cs with
   | a :: '/' :: t =>
     if a.isDigit then (monthYear t).map (fun m => a :: '/' :: m) else none
   | _ => none)

/-- First `(\d{1,2}\/\d{1,2}\/\d{4})` match anywhere in the input. -/
def findDate : List Char → Option (List Char)
  | [] => none
  | c :: t =>
    match matchDateAt (c :: t) with
    | some m => some m
    | none => findDate t

/-- `DataProcessor.standardizeAvailability`. -/
def standardizeAvailability (availability : String) : String :=
  if availability = "" then "Contact for Availability"
  else
    let lower := availability.data.map Char.toLower
    if containsSub lower "available now".data || lower = "available".data then "Available Now"
    else if containsSub lower "not specified".data || containsSub lower "not available".data then
      "Contact for Availability"
    else
      match findDate availability.data with
      | some d => "Available " ++ String.mk d
      | none => availability

/-- The enhanced `FloorPlan` record (src/types/types.ts, enhanced
version). -/
structure FloorPlan where
  name : String
  price : ℚ
  priceRange : Option (ℚ × ℚ) := none
  bedrooms : ℚ
  bathrooms : ℚ
  squareFootage : ℚ
  pricePerSqFt : ℚ
  amenities : List String
  availability : String
  moveInDate : Option String := none
  propertyName : String
  propertyUrl : String
  description : Option String := none
  unitType : Option UnitType := none
deriving DecidableEq, Repr

/-- The `bedroomDistribution` histogram of a `PropertySummary`. -/
structure BedroomDistribution where
  studio : ℕ
  oneBed : ℕ
  twoBed : ℕ
  threeBed : ℕ
  fourPlusBed : ℕ
deriving DecidableEq, Repr

/-- The `priceRange` field of a `PropertySummary` (`Math.min`/`Math.max`
over a possibly empty list, hence `JsNum`). -/
structure PriceRange where
  min : JsNum
  max : JsNum
deriving DecidableEq, Repr

/-- `PropertySummary` (src/types/types.ts). -/
structure PropertySummary where
  propertyName : String
  totalFloorPlans : ℕ
  priceRange : PriceRange
  avgPricePerSqFt : JsNum
  bedroomDistribution : BedroomDistribution
  availableUnits : ℕ
deriving DecidableEq, Repr

/-- The `marketSummary` field of a `DailyReport`. -/
structure MarketSummary where
  totalUnits : ℕ
  avgRent : JsNum
  avgPricePerSqFt : JsNum
  cheapestUnit : FloorPlan
  mostExpensiveUnit : FloorPlan
  bestValueUnit : FloorPlan
deriving DecidableEq, Repr

/-- `DailyReport` (src/types/types.ts). -/
structure DailyReport where
  date : String
  properties : List PropertySummary
  allFloorPlans : List FloorPlan
  marketSummary : MarketSummary
deriving DecidableEq, Repr

/-- `ScrapingResult` (src/types/types.ts). -/
structure ScrapingResult where
  success : Bool
  message : String
  timestamp : String
  source : String
  floorPlans : List FloorPlan
  errors : List String
deriving DecidableEq, Repr

/-- `Math.min(...list)`: `Infinity` on the empty list. -/
def jsMinList : List ℚ → JsNum
  | [] => .posInf
  | x :: xs => .finite (xs.foldl min x)

/-- `Math.max(...list)`: `-Infinity` on the empty list. -/
def jsMaxList : List ℚ → JsNum
  | [] => .negInf
  | x :: xs => .finite (xs.foldl max x)

/-- `Math.round((list.reduce((a,b) => a+b, 0) / list.length) * 100) / 100`:
`NaN` on the empty list (division `0/0`). -/
def jsAvg2 : List ℚ → JsNum
  | [] => .nan
  | x :: xs => .finite (round2 (qdiv (qsum (x :: xs)) ((x :: xs).length : ℚ)))

/-- `Math.round(list.reduce((a,b) => a+b, 0) / list.length)`:
`NaN` on the empty list. -/
def jsAvgRound : List ℚ → JsNum
  | [] => .nan
  | x :: xs => .finite (mkRat (jsRound (qdiv (qsum (x :: xs)) ((x :: xs).length : ℚ))) 1)

/-- The `switch (fp.bedrooms)` accumulator of
`DataProcessor.createPropertySummary`. -/
def bedroomBucket (acc : BedroomDistribution) (fp : FloorPlan) : BedroomDistribution :=
  if fp.bedrooms = 0 then { acc with studio := acc.studio + 1 }
  else if fp.bedrooms = 1 then { acc with oneBed := acc.oneBed + 1 }
  else if fp.bedrooms = 2 then { acc with twoBed := acc.twoBed + 1 }
  else if fp.bedrooms = 3 then { acc with threeBed := acc.threeBed + 1 }
  else { acc with fourPlusBed := acc.fourPlusBed + 1 }

/-- `DataProcessor.createPropertySummary`. -/
def createPropertySummary (propertyName : String) (floorPlans : List FloorPlan) : PropertySummary :=
  let prices := (floorPlans.map (fun fp => fp.price)).filter (fun p => 0 < p)
  let pricesPerSqFt := (floorPlans.map (fun fp => fp.pricePerSqFt)).filter (fun p => 0 < p)
  { propertyName := propertyName
    totalFloorPlans := floorPlans.length
    priceRange := { min := jsMinList prices, max := jsMaxList prices }
    avgPricePerSqFt := jsAvg2 pricesPerSqFt
    bedroomDistribution := floorPlans.foldl bedroomBucket ⟨0, 0, 0, 0, 0⟩
    availableUnits :=
      (floorPlans.filter (fun fp =>
        containsSub fp.availability.data "Available".data ||
        containsSub fp.availability.data "/".data)).length }

/-- One step of the `cheapest`/`bestValue` reduction of
`DataProcessor.createDailyReport`, generic in the inspected field:
`f fp > 0 && (f acc === 0 || f fp < f acc) ? fp : acc`. -/
def minPosStep (f : FloorPlan → ℚ) (acc fp : FloorPlan) : FloorPlan :=
  if 0 < f fp ∧ (f acc = 0 ∨ f fp < f acc) then fp else acc

/-- One step of the `mostExpensive` reduction:
`fp.price > acc.price ? fp : acc`. -/
def maxPriceStep (acc fp : FloorPlan) : FloorPlan :=
  if acc.price < fp.price then fp else acc

/-- `new Date().toISOString().split('T')[0] || new Date().toDateString()`:
the clock readings are explicit parameters of the model. -/
def dateOf (nowIso nowDateStr : String) : String :=
  let d := String.mk (nowIso.data.takeWhile (fun c => !(c == 'T')))
  if d = "" then nowDateStr else d

/-- `DataProcessor.createDailyReport`.  The three `Array.prototype.reduce`
calls have no initial accumulator, so the JavaScript function throws a
`TypeError` on an empty `allFloorPlans`; this is modelled by `none`. -/
def createDailyReport (nowIso nowDateStr : String) (propertySummaries : List PropertySummary)
    (allFloorPlans : List FloorPlan) : Option DailyReport :=
  match allFloorPlans with
  | [] => none
  | p :: ps =>
    let prices := ((p :: ps).map (fun fp => fp.price)).filter (fun q => 0 < q)
    let pricesPerSqFt := ((p :: ps).map (fun fp => fp.pricePerSqFt)).filter (fun q => 0 < q)
    some
      { date := dateOf nowIso nowDateStr
        properties := propertySummaries
        allFloorPlans := p :: ps
        marketSummary :=
          { totalUnits := (p :: ps).length
            avgRent := jsAvgRound prices
            avgPricePerSqFt := jsAvg2 pricesPerSqFt
            cheapestUnit := ps.foldl (minPosStep (fun fp => fp.price)) p
            mostExpensiveUnit := ps.foldl maxPriceStep p
            bestValueUnit := ps.foldl (minPosStep (fun fp => fp.pricePerSqFt)) p } }

/-- The data-analysis phase of `main` (index.ts): skip aggregation
entirely when no floor plans were collected, otherwise build the per-site
property summaries and the daily report. -/
def mainAggregate (nowIso nowDateStr : String) (allFloorPlans : List FloorPlan) :
    Option DailyReport :=
  if allFloorPlans.length = 0 then none
  else
    let camdenPlans := allFloorPlans.filter (fun fp => fp.propertyName == "Camden Dunwoody")
    let columnsPlans := allFloorPlans.filter (fun fp => fp.propertyName == "The Columns at Lake Ridge")
    let propertySummaries :=
      (if 0 < camdenPlans.length then [createPropertySummary "Camden Dunwoody" camdenPlans] else []) ++
      (if 0 < columnsPlans.length then [createPropertySummary "The Columns at Lake Ridge" columnsPlans] else [])
    createDailyReport nowIso nowDateStr propertySummaries allFloorPlans

/-- The raw per-card record produced by the in-page extraction callbacks
of both site extractors (`name`/`price`/`bedBathCount`/`squareFootage`
are raw text fragments). -/
structure RawPlan where
  name : String
  price : String
  bedBathCount : String
  squareFootage : String
  amenities : List String
  availability : String
deriving DecidableEq, Repr

/-- Environment of `scrapeCamden`: each fallible browser operation is an
`Except`-valued field (the DOM itself is an external collaborator, so the
output of the in-page `evaluate` callback is supplied by the
environment). -/
structure CamdenEnv where
  launch : Except String Unit
  newPage : Except String Unit
  setHeaders : Except String Unit
  goto : Except String Unit
  title : Except String String
  url : Except String String
  waitForSelector : Except String Unit
  amenities : Except String (List String)
  evalCards : List String → Except String (List RawPlan)

/-- The raw-to-`FloorPlan` enhancement mapping at the end of
`extractCamdenFloorPlans` (camden.ts). -/
def enhanceCamden (rawPlan : RawPlan) : FloorPlan :=
  let price := parsePriceQ rawPlan.price
  let bedrooms := parseBedrooms rawPlan.bedBathCount
  let bathrooms := parseBathrooms rawPlan.bedBathCount
  let squareFootage := parseSquareFootage rawPlan.squareFootage
  let cleanName := cleanFloorPlanName rawPlan.name
  let unitType := determineUnitType rawPlan.name bathrooms
  let pricePerSqFt := calculatePricePerSqFt price squareFootage
  let availability := standardizeAvailability rawPlan.availability
  { name := cleanName
    price := price
    bedrooms := bedrooms
    bathrooms := bathrooms
    squareFootage := squareFootage
    pricePerSqFt := pricePerSqFt
    amenities := rawPlan.amenities
    availability := availability
    propertyName := "Camden Dunwoody"
    propertyUrl := "https://www.camdenliving.com/apartments/dunwoody-ga/camden-dunwoody/available-apartments"
    unitType := some unitType
    moveInDate := if (findDate rawPlan.availability.data).isSome then some rawPlan.availability else none }

/-- `extractCamdenFloorPlans`: its own `try`/`catch` converts any error
into an empty list; the inner amenities `try` only falls back to the
empty amenity list. -/
def extractCamdenFloorPlans (env : CamdenEnv) : List FloorPlan :=
  let communityAmenities := match env.amenities with
    | .ok a => a
    | .error _ => []
  let body : Except String (List FloorPlan) := do
    let _ ← env.waitForSelector
    let raws ← env.evalCards communityAmenities
    pure (raws.map enhanceCamden)
  match body with
  | .ok l => l
  | .error _ => []

/-- The navigation-and-extraction body of `scrapeCamden`, inside its
`try`. -/
def camdenBody (env : CamdenEnv) : Except String (List FloorPlan) := do
  let _ ← env.launch
  let _ ← env.newPage
  let _ ← env.setHeaders
  let _ ← env.goto
  let _ ← env.title
  let _ ← env.url
  pure (extractCamdenFloorPlans env)

/-- `scrapeCamden`: the `catch` boundary logs the error and returns the
empty list. -/
def scrapeCamden (env : CamdenEnv) : List FloorPlan :=
  match camdenBody env with
  | .ok l => l
  | .error _ => []

/-- One candidate floor-plan card element found by the Columns selector
probing: the element-level operations the per-element loop performs,
each fallible (the DOM itself is the external collaborator). -/
structure ColumnsElement where
  textContent : Except String String
  innerHTML : Except String String
  extractPlan : Except String (Option RawPlan)

/-- `extractFloorPlanFromElement` (columns.ts): its own `try`/`catch`
converts any error during its DOM probing into `null`. -/
def extractFloorPlanFromElement (el : ColumnsElement) : Option RawPlan :=
  match el.extractPlan with
  | .ok p => p
  | .error _ => none

/-- The fallible part of one iteration of the Columns element loop:
read the element's text and HTML, then extract a floor plan from it. -/
def columnsElementBody (el : ColumnsElement) : Except String (Option RawPlan) := do
  let _ ← el.textContent
  let _ ← el.innerHTML
  pure (extractFloorPlanFromElement el)

/-- One iteration of the per-element loop of `extractColumnsFloorPlans`:
a successful extraction is pushed, a `null` extraction contributes
nothing, and an element error is logged and the element skipped. -/
def processElement (acc : List RawPlan) (el : ColumnsElement) : List RawPlan :=
  match columnsElementBody el with
  | .ok (some fp) => acc ++ [fp]
  | .ok none => acc
  | .error _ => acc

/-- Environment of `scrapeColumns`.  `floorPlanElements` is the outcome
of the ordered selector probing: the card elements matched by the first
selector with at least one match (the empty list when none matched). -/
structure ColumnsEnv where
  launch : Except String Unit
  newPage : Except String Unit
  setHeaders : Except String Unit
  goto : Except String Unit
  title : Except String String
  url : Except String String
  floorPlanElements : Except String (List ColumnsElement)

/-- `extractColumnsFloorPlans`: its own `try`/`catch` converts any error
that reaches it into an empty list (a failure of the selector probing,
or finding no elements — whose debug path also ends in `return []`);
otherwise each element is processed by the loop, whose per-element
`catch` merely skips the failing element. -/
def extractColumnsFloorPlans (env : ColumnsEnv) : List RawPlan :=
  match env.floorPlanElements with
  | .error _ => []
  | .ok els => els.foldl processElement []

/-- The first `.map` of the Columns post-processing (columns.ts):
field parsing from the temporarily stored raw text. -/
def processColumnsPlan (plan : RawPlan) : FloorPlan :=
  let rawText := plan.bedBathCount
  let rawPrice := plan.price
  let rawSqft := plan.squareFootage
  let bathrooms := parseBathrooms rawText
  let cleanName := String.mk (collapseRuns ' ' (trimWs plan.name.data))
  { name := cleanName
    price := parsePriceQ rawPrice
    bedrooms := parseBedrooms rawText
    bathrooms := bathrooms
    squareFootage := parseSquareFootage rawSqft
    pricePerSqFt := 0
    amenities := plan.amenities
    availability := plan.availability
    propertyName := "The Columns at Lake Ridge"
    propertyUrl := "https://www.thecolumnsatlakeridge.com"
    unitType := some (determineUnitType cleanName bathrooms) }

/-- The second `.map` of the Columns post-processing: inline price per
square foot (`squareFootage > 0 ? Math.round((price/sqft)*100)/100 : 0`). -/
def columnsPpsf (plan : FloorPlan) : FloorPlan :=
  { plan with
    pricePerSqFt := if 0 < plan.squareFootage then round2 (qdiv plan.price plan.squareFootage) else 0 }

/-- The navigation-and-extraction body of `scrapeColumns`, inside its
`try`. -/
def columnsBody (env : ColumnsEnv) : Except String (List FloorPlan) := do
  let _ ← env.launch
  let _ ← env.newPage
  let _ ← env.setHeaders
  let _ ← env.goto
  let _ ← env.title
  let _ ← env.url
  pure (((extractColumnsFloorPlans env).map processColumnsPlan).map columnsPpsf)

/-- `scrapeColumns`: the `catch` boundary logs the error and returns the
empty list. -/
def scrapeColumns (env : ColumnsEnv) : List FloorPlan :=
  match columnsBody env with
  | .ok l => l
  | .error _ => []

/-- Filesystem collaborator of `StorageService` (fs/promises plus
`JSON.stringify` and the clock reading). -/
structure FsEnv where
  access : String → Except String Unit
  mkdir : String → Except String Unit
  writeFile : String → String → Except String Unit
  stringifyReport : DailyReport → String
  stringifyResult : ScrapingResult → String
  nowIso : String

/-- `StorageService` instance state (`dataDir` constructor argument). -/
structure StorageService where
  dataDir : String
deriving DecidableEq, Repr

/-- `this.pricesFile = path.join(dataDir, 'prices.json')`. -/
def pricesFile (svc : StorageService) : String := svc.dataDir ++ "/prices.json"

/-- `StorageService.ensureDataDirectory`: try `access`, fall back to
`mkdir` (whose error would propagate). -/
def ensureDataDirectory (env : FsEnv) (svc : StorageService) : Except String Unit :=
  match env.access svc.dataDir with
  | .ok _ => .ok ()
  | .error _ => env.mkdir svc.dataDir

/-- `StorageService.saveDailyReport`: after ensuring the directory, write
the serialized report; a write error is logged and re-thrown unchanged. -/
def saveDailyReport (env : FsEnv) (svc : StorageService) (report : DailyReport) :
    Except String Unit :=
  match ensureDataDirectory env svc with
  | .error e => .error e
  | .ok _ =>
    match env.writeFile (pricesFile svc) (env.stringifyReport report) with
    | .ok _ => .ok ()
    | .error e => .error e

/-- `result.source.toLowerCase().replace(/\s+/g, '-')`. -/
def sourceSlug (source : String) : String :=
  String.mk (collapseRuns '-' (source.data.map Char.toLower))

/-- The per-site snapshot path
`<slug>-<yyyy-mm-dd>.json` inside the data directory. -/
def scrapingFilePath (env : FsEnv) (svc : StorageService) (result : ScrapingResult) : String :=
  svc.dataDir ++ "/" ++ sourceSlug result.source ++ "-" ++
    String.mk (env.nowIso.data.takeWhile (fun c => !(c == 'T'))) ++ ".json"

/-- `StorageService.saveScrapingResult`: write error logged and re-thrown
unchanged. -/
def saveScrapingResult (env : FsEnv) (svc : StorageService) (result : ScrapingResult) :
    Except String Unit :=
  match ensureDataDirectory env svc with
  | .error e => .error e
  | .ok _ =>
    match env.writeFile (scrapingFilePath env svc result) (env.stringifyResult result) with
    | .ok _ => .ok ()
    | .error e => .error e

/-! ### Concrete fixtures used by the witness theorems -/

/-- A concrete in-range floor plan. -/
def fpW1 : FloorPlan :=
  { name := "Plan A", price := 1500, bedrooms := 1, bathrooms := 1, squareFootage := 750,
    pricePerSqFt := 2, amenities := [], availability := "Available Now",
    propertyName := "Camden Dunwoody", propertyUrl := "https://example.test/camden" }

/-- A second concrete floor plan, cheaper than `fpW1`. -/
def fpW2 : FloorPlan :=
  { name := "Plan B", price := 1200, bedrooms := 2, bathrooms := 2, squareFootage := 960,
    pricePerSqFt := mkRat 5 4, amenities := [], availability := "Available Now",
    propertyName := "The Columns at Lake Ridge", propertyUrl := "https://example.test/columns" }

/-- A floor plan whose price and price-per-square-foot are both zero. -/
def fpZ : FloorPlan :=
  { name := "Plan Z", price := 0, bedrooms := 0, bathrooms := 1, squareFootage := 0,
    pricePerSqFt := 0, amenities := [], availability := "Not specified",
    propertyName := "Camden Dunwoody", propertyUrl := "https://example.test/camden" }

/-- A Camden environment whose navigation step fails. -/
def camdenEnvFail : CamdenEnv :=
  { launch := .ok (), newPage := .ok (), setHeaders := .ok (),
    goto := .error "net::ERR_TIMED_OUT", title := .ok "", url := .ok "",
    waitForSelector := .ok (), amenities := .ok [], evalCards := fun _ => .ok [] }

/-- A Columns environment whose navigation step fails. -/
def columnsEnvFail : ColumnsEnv :=
  { launch := .ok (), newPage := .ok (), setHeaders := .ok (),
    goto := .error "Timeout 30000ms exceeded", title := .ok "", url := .ok "",
    floorPlanElements := .ok [] }

/-- A concrete raw card record, as the in-page extraction produces it. -/
def rawPlanW : RawPlan :=
  { name := "The Birch", price := "$1,450", bedBathCount := "1 Bed / 1 Bath",
    squareFootage := "850", amenities := [], availability := "Available" }

/-- A Camden environment whose amenities click fails while the card
extraction succeeds with one card. -/
def camdenEnvPartial : CamdenEnv :=
  { launch := .ok (), newPage := .ok (), setHeaders := .ok (), goto := .ok (),
    title := .ok "Camden Dunwoody", url := .ok "https://example.test/camden",
    waitForSelector := .ok (), amenities := .error "amenities click failed",
    evalCards := fun _ => .ok [rawPlanW] }

/-- A Columns card element whose operations all succeed. -/
def elGood : ColumnsElement :=
  { textContent := .ok "A2 1 Bed / 1 Bath 850 SqFt $1,450",
    innerHTML := .ok "<div>A2</div>", extractPlan := .ok (some rawPlanW) }

/-- A Columns card element whose text read fails. -/
def elBad : ColumnsElement :=
  { textContent := .error "element is stale", innerHTML := .ok "",
    extractPlan := .ok none }

/-- A Columns environment whose element loop meets one good and one
failing element. -/
def columnsEnvPartial : ColumnsEnv :=
  { launch := .ok (), newPage := .ok (), setHeaders := .ok (), goto := .ok (),
    title := .ok "The Columns at Lake Ridge", url := .ok "https://example.test/columns",
    floorPlanElements := .ok [elGood, elBad] }

/-- A concrete daily report. -/
def reportW : DailyReport :=
  { date := "2025-01-01", properties := [], allFloorPlans := [fpW1],
    marketSummary :=
      { totalUnits := 1, avgRent := .finite 1500, avgPricePerSqFt := .finite 2,
        cheapestUnit := fpW1, mostExpensiveUnit := fpW1, bestValueUnit := fpW1 } }

/-- A concrete scraping result. -/
def resultW : ScrapingResult :=
  { success := true, message := "Camden scraping completed successfully",
    timestamp := "2025-01-01T12:00:00.000Z", source := "Camden Dunwoody",
    floorPlans := [fpW1], errors := [] }

/-- A filesystem environment whose writes always fail. -/
def fsEnvFail : FsEnv :=
  { access := fun _ => .ok (), mkdir := fun _ => .ok (),
    writeFile := fun _ _ => .error "ENOSPC",
    stringifyReport := fun _ => "", stringifyResult := fun _ => "",
    nowIso := "2025-01-01T12:00:00.000Z" }

/-- A storage service rooted at the default data directory. -/
def svcW : StorageService := { dataDir := "data" }

/-! ### The computable arithmetic spellings agree with the field operations -/

theorem qadd_eq_add (a b : ℚ) : qadd a b = a + b := by
  have had : ((a.den : ℚ)) ≠ 0 := Nat.cast_ne_zero.mpr a.den_nz
  have hbd : ((b.den : ℚ)) ≠ 0 := Nat.cast_ne_zero.mpr b.den_nz
  rw [qadd, Rat.divInt_eq_div]
  push_cast
  conv_rhs => rw [← Rat.num_div_den a, ← Rat.num_div_den b]
  field_simp

theorem qmul_eq_mul (a b : ℚ) : qmul a b = a * b := by
  have had : ((a.den : ℚ)) ≠ 0 := Nat.cast_ne_zero.mpr a.den_nz
  have hbd : ((b.den : ℚ)) ≠ 0 := Nat.cast_ne_zero.mpr b.den_nz
  rw [qmul, Rat.divInt_eq_div]
  push_cast
  conv_rhs => rw [← Rat.num_div_den a, ← Rat.num_div_den b]
  field_simp

theorem qdiv_eq_div (a b : ℚ) : qdiv a b = a / b := by
  have had : ((a.den : ℚ)) ≠ 0 := Nat.cast_ne_zero.mpr a.den_nz
  rcases eq_or_ne b 0 with rfl | hb
  · simp [qdiv, Rat.divInt_eq_div]
  · have hbd : ((b.den : ℚ)) ≠ 0 := Nat.cast_ne_zero.mpr b.den_nz
    have hbn : ((b.num : ℚ)) ≠ 0 := by
      exact_mod_cast fun h => hb (Rat.num_eq_zero.mp (by exact_mod_cast h))
    rw [qdiv, Rat.divInt_eq_div]
    push_cast
    conv_rhs => rw [← Rat.num_div_den a, ← Rat.num_div_den b]
    field_simp

theorem qsum_eq_sum (l : List ℚ) : qsum l = l.sum := by
  rw [qsum]
  suffices h : ∀ a : ℚ, l.foldl qadd a = a + l.sum by simpa using h 0
  induction l with
  | nil => intro a; simp
  | cons x xs ih =>
    intro a
    simp only [List.foldl_cons, qadd_eq_add, List.sum_cons]
    rw [ih]
    ring

theorem jsRound_eq_floor (q : ℚ) : jsRound q = ⌊q + 1/2⌋ := by
  rw [jsRound, qadd_eq_add, (Rat.floor_def' _).trans Rat.floor_def.symm]
  norm_num [Rat.mkRat_eq_div]

/-! ### Helper lemmas about folds -/

theorem foldl_min_mem (x : ℚ) (xs : List ℚ) : xs.foldl min x ∈ x :: xs := by
  induction xs generalizing x with
  | nil => exact List.mem_singleton.mpr rfl
  | cons y ys ih =>
    simp only [List.foldl_cons]
    rcases List.mem_cons.mp (ih (min x y)) with h | h
    · rcases min_choice x y with hc | hc
      · rw [h, hc]; exact List.mem_cons_self _ _
      · rw [h, hc]; exact List.mem_cons_of_mem _ (List.mem_cons_self _ _)
    · exact List.mem_cons_of_mem _ (List.mem_cons_of_mem _ h)

theorem foldl_min_le (x : ℚ) (xs : List ℚ) : ∀ y ∈ x :: xs, xs.foldl min x ≤ y := by
  induction xs generalizing x with
  | nil =>
    intro y hy
    rw [List.mem_singleton] at hy
    exact le_of_eq (hy ▸ rfl)
  | cons z zs ih =>
    intro y hy
    simp only [List.foldl_cons]
    have hmin : zs.foldl min (min x z) ≤ min x z := ih (min x z) (min x z) (List.mem_cons_self _ _)
    rcases List.mem_cons.mp hy with rfl | hy2
    · exact le_trans hmin (min_le_left _ _)
    · rcases List.mem_cons.mp hy2 with rfl | hy3
      · exact le_trans hmin (min_le_right _ _)
      · exact ih (min x z) y (List.mem_cons_of_mem _ hy3)

theorem foldl_max_mem (x : ℚ) (xs : List ℚ) : xs.foldl max x ∈ x :: xs := by
  induction xs generalizing x with
  | nil => exact List.mem_singleton.mpr rfl
  | cons y ys ih =>
    simp only [List.foldl_cons]
    rcases List.mem_cons.mp (ih (max x y)) with h | h
    · rcases max_choice x y with hc | hc
      · rw [h, hc]; exact List.mem_cons_self _ _
      · rw [h, hc]; exact List.mem_cons_of_mem _ (List.mem_cons_self _ _)
    · exact List.mem_cons_of_mem _ (List.mem_cons_of_mem _ h)

theorem le_foldl_max (x : ℚ) (xs : List ℚ) : ∀ y ∈ x :: xs, y ≤ xs.foldl max x := by
  induction xs generalizing x with
  | nil =>
    intro y hy
    rw [List.mem_singleton] at hy
    exact le_of_eq (hy ▸ rfl)
  | cons z zs ih =>
    intro y hy
    simp only [List.foldl_cons]
    have hmax : max x z ≤ zs.foldl max (max x z) := ih (max x z) (max x z) (List.mem_cons_self _ _)
    rcases List.mem_cons.mp hy with rfl | hy2
    · exact le_trans (le_max_left _ _) hmax
    · rcases List.mem_cons.mp hy2 with rfl | hy3
      · exact le_trans (le_max_right _ _) hmax
      · exact ih (max x z) y (List.mem_cons_of_mem _ hy3)

/-! ### Helper lemmas about the positive-sentinel reduction step -/

theorem minPosStep_stays_neg (f : FloorPlan → ℚ) (xs : List FloorPlan) (acc : FloorPlan)
    (h : f acc < 0) : xs.foldl (minPosStep f) acc = acc := by
  induction xs with
  | nil => rfl
  | cons y ys ih =>
    have hstep : minPosStep f acc y = acc := by
      unfold minPosStep
      rw [if_neg]
      rintro ⟨h1, h2 | h3⟩
      · exact absurd h2 (ne_of_lt h)
      · exact absurd (lt_trans h1 h3) (not_lt.mpr (le_of_lt h))
    simp only [List.foldl_cons, hstep]
    exact ih

theorem minPosStep_from_pos (f : FloorPlan → ℚ) (xs : List FloorPlan) :
    ∀ acc, 0 < f acc →
      0 < f (xs.foldl (minPosStep f) acc) ∧ f (xs.foldl (minPosStep f) acc) ≤ f acc := by
  induction xs with
  | nil => exact fun acc h => ⟨h, le_refl _⟩
  | cons y ys ih =>
    intro acc h
    simp only [List.foldl_cons]
    by_cases hc : 0 < f y ∧ (f acc = 0 ∨ f y < f acc)
    · have hlt : f y < f acc := by
        rcases hc.2 with h0 | hlt
        · exact absurd h0 (ne_of_gt h)
        · exact hlt
      have hstep : minPosStep f acc y = y := by unfold minPosStep; exact if_pos hc
      rw [hstep]
      obtain ⟨p1, p2⟩ := ih y hc.1
      exact ⟨p1, le_trans p2 (le_of_lt hlt)⟩
    · have hstep : minPosStep f acc y = acc := by unfold minPosStep; exact if_neg hc
      rw [hstep]
      exact ih acc h

theorem minPosStep_le_mem (f : FloorPlan → ℚ) (xs : List FloorPlan) :
    ∀ acc fp, fp ∈ xs → 0 < f fp → f (xs.foldl (minPosStep f) acc) ≤ f fp := by
  induction xs with
  | nil => intro acc fp h _; exact absurd h (List.not_mem_nil _)
  | cons y ys ih =>
    intro acc fp hmem hpos
    simp only [List.foldl_cons]
    rcases List.mem_cons.mp hmem with rfl | h2
    · by_cases hc : 0 < f fp ∧ (f acc = 0 ∨ f fp < f acc)
      · have hstep : minPosStep f acc fp = fp := by unfold minPosStep; exact if_pos hc
        rw [hstep]
        exact (minPosStep_from_pos f ys fp hpos).2
      · have hstep : minPosStep f acc fp = acc := by unfold minPosStep; exact if_neg hc
        rw [hstep]
        push_neg at hc
        obtain ⟨hz, hle⟩ := hc hpos
        rcases lt_trichotomy (f acc) 0 with hneg | h0 | hposa
        · rw [minPosStep_stays_neg f ys acc hneg]
          exact le_trans (le_of_lt hneg) (le_of_lt hpos)
        · exact absurd h0 hz
        · exact le_trans (minPosStep_from_pos f ys acc hposa).2 hle
    · exact ih (minPosStep f acc y) fp h2 hpos

/-! ### Claim theorems -/

/-- C1: the claim says `parsePrice` keeps hyphens and returns the minimum
of a range, giving 1583 on `"$1,583 - $1,650"`.  In the code the cleaning
regex `[^0-9,.]` also strips hyphens (the code's own comment says the
range branch handles `"1,583 - 1,650"`, but the branch is dead), so the
digits of both endpoints concatenate and the function returns 15831650. -/
theorem parsePrice_range_branch_dead :
    parsePrice "$1,583 - $1,650" = JsNum.finite 15831650 ∧
    parsePrice "$1,583 - $1,650" ≠ JsNum.finite 1583 ∧
    ∀ s : String, (priceClean s).contains '-' = false := by
  refine ⟨by decide, by decide, ?_⟩
  intro s
  unfold priceClean
  induction s.data with
  | nil => rfl
  | cons c t ih =>
    simp only [List.filter_cons]
    by_cases hc : (c.isDigit || c == ',' || c == '.') = true
    · rw [if_pos hc]
      have hne : ('-' == c) = false := by
        by_cases h : c = '-'
        · subst h; exact absurd hc (by decide)
        · exact beq_eq_false_iff_ne.mpr (fun he => h he.symm)
      simp only [List.contains_cons, hne, Bool.false_or]
      exact ih
    · rw [if_neg hc]; exact ih

/-- C3 counterexample: applying `parseSquareFootage` and `parsePrice` to
the single raw text `"A2 1 Bed / 1 Bath 850 SqFt $1,450"` does NOT give
850 and 1450: the first numeric match is the `2` of `"A2"`, and the price
cleaning concatenates every digit of the text into 2118501450. -/
theorem parserChain_single_text_counterexample :
    parseSquareFootage "A2 1 Bed / 1 Bath 850 SqFt $1,450" = 2 ∧
    parseSquareFootage "A2 1 Bed / 1 Bath 850 SqFt $1,450" ≠ 850 ∧
    parsePrice "A2 1 Bed / 1 Bath 850 SqFt $1,450" = JsNum.finite 2118501450 ∧
    parsePrice "A2 1 Bed / 1 Bath 850 SqFt $1,450" ≠ JsNum.finite 1450 := by
  refine ⟨?_, ?_, ?_, ?_⟩ <;> decide

/-- C3 amended: on the raw text `"A2 1 Bed / 1 Bath 850 SqFt $1,450"`,
`parseBedrooms`, `parseBathrooms` and `determineUnitType` behave as the
scenario says, but `parseSquareFootage` and `parsePrice` only produce 850
and 1450 when applied to their per-field fragments (`"850 SqFt"` and
`"$1,450"`), as the extractors do; `calculatePricePerSqFt 1450 850`
then gives 1.71. -/
theorem parserChain_per_field_scenario :
    parseBedrooms "A2 1 Bed / 1 Bath 850 SqFt $1,450" = 1 ∧
    parseBathrooms "A2 1 Bed / 1 Bath 850 SqFt $1,450" = 1 ∧
    parseSquareFootage "850 SqFt" = 850 ∧
    parsePrice "$1,450" = JsNum.finite 1450 ∧
    calculatePricePerSqFt 1450 850 = mkRat 171 100 ∧
    determineUnitType "A2 1 Bed / 1 Bath 850 SqFt $1,450" 1 = UnitType.apartment := by
  refine ⟨?_, ?_, ?_, ?_, ?_, ?_⟩ <;> decide

/-- C6: `determineUnitType` returns `studio` whenever the lower-cased name
contains `"studio"` (whatever the bathroom count), else `townhome` when
the name contains `"townhome"`/`"townhouse"` or bathrooms exceed 2.5,
else `apartment`. -/
theorem determineUnitType_priority (name : String) (bathrooms : ℚ) :
    (containsSub (name.data.map Char.toLower) "studio".data = true →
      determineUnitType name bathrooms = UnitType.studio) ∧
    (containsSub (name.data.map Char.toLower) "studio".data = false →
      (containsSub (name.data.map Char.toLower) "townhome".data = true ∨
        containsSub (name.data.map Char.toLower) "townhouse".data = true ∨
        mkRat 5 2 < bathrooms) →
      determineUnitType name bathrooms = UnitType.townhome) ∧
    (containsSub (name.data.map Char.toLower) "studio".data = false →
      containsSub (name.data.map Char.toLower) "townhome".data = false →
      containsSub (name.data.map Char.toLower) "townhouse".data = false →
      bathrooms ≤ mkRat 5 2 →
      determineUnitType name bathrooms = UnitType.apartment) := by
  refine ⟨?_, ?_, ?_⟩
  · intro hs
    unfold determineUnitType
    rw [if_pos hs]
  · intro hs ho
    unfold determineUnitType
    rw [if_neg (by simp [hs])]
    rcases ho with h1 | h1 | h1
    · rw [if_pos (by simp [h1])]
    · rw [if_pos (by simp [h1])]
    · by_cases h2 : (containsSub (name.data.map Char.toLower) "townhome".data ||
          containsSub (name.data.map Char.toLower) "townhouse".data) = true
      · rw [if_pos h2]
      · rw [if_neg (by simp [Bool.or_eq_true] at h2 ⊢; exact h2), if_pos h1]
  · intro hs h1 h2 hb
    unfold determineUnitType
    rw [if_neg (by simp [hs]), if_neg (by simp [h1, h2]), if_neg (not_lt.mpr hb)]

/-- C6 witness: the three spec examples, with a bathroom count above 2.5
for the studio case to exhibit the priority of the name check. -/
theorem determineUnitType_priority_witness :
    determineUnitType "Studio A" 3 = UnitType.studio ∧
    determineUnitType "The Oakwood Townhome" 1 = UnitType.townhome ∧
    determineUnitType "Plan B2" 2 = UnitType.apartment :=
  ⟨(determineUnitType_priority "Studio A" 3).1 (by decide),
   (determineUnitType_priority "The Oakwood Townhome" 1).2.1 (by decide)
     (Or.inl (by decide)),
   (determineUnitType_priority "Plan B2" 2).2.2 (by decide)
     (by decide) (by decide)
     (by decide)⟩

/-- C2: for every non-empty floor-plan list, the daily report's cheapest
unit undercuts every positive price and the best-value unit undercuts
every positive price per square foot; all three market picks are the
stated linear scans, whose step keeps the earlier element on ties and
treats a 0 accumulator value as "no candidate yet". -/
theorem createDailyReport_market_invariants (nowIso nowDateStr : String)
    (s : List PropertySummary) (p : FloorPlan) (ps : List FloorPlan) (r : DailyReport)
    (hr : createDailyReport nowIso nowDateStr s (p :: ps) = some r) :
    (∀ fp ∈ p :: ps, 0 < fp.price → r.marketSummary.cheapestUnit.price ≤ fp.price) ∧
    (∀ fp ∈ p :: ps, 0 < fp.pricePerSqFt →
      r.marketSummary.bestValueUnit.pricePerSqFt ≤ fp.pricePerSqFt) ∧
    r.marketSummary.cheapestUnit = ps.foldl (minPosStep (fun fp => fp.price)) p ∧
    r.marketSummary.mostExpensiveUnit = ps.foldl maxPriceStep p ∧
    r.marketSummary.bestValueUnit = ps.foldl (minPosStep (fun fp => fp.pricePerSqFt)) p ∧
    (∀ f acc fp, f fp = f acc → minPosStep f acc fp = acc) ∧
    (∀ acc fp, fp.price = acc.price → maxPriceStep acc fp = acc) ∧
    (∀ f acc fp, f acc = 0 → 0 < f fp → minPosStep f acc fp = fp) := by
  obtain rfl := Option.some.inj hr
  refine ⟨?_, ?_, rfl, rfl, rfl, ?_, ?_, ?_⟩
  · intro fp hmem hpos
    rcases List.mem_cons.mp hmem with rfl | h2
    · exact (minPosStep_from_pos (fun fp => fp.price) ps fp hpos).2
    · exact minPosStep_le_mem (fun fp => fp.price) ps p fp h2 hpos
  · intro fp hmem hpos
    rcases List.mem_cons.mp hmem with rfl | h2
    · exact (minPosStep_from_pos (fun fp => fp.pricePerSqFt) ps fp hpos).2
    · exact minPosStep_le_mem (fun fp => fp.pricePerSqFt) ps p fp h2 hpos
  · intro f acc fp hfe
    unfold minPosStep
    rw [if_neg]
    rintro ⟨h1, h2 | h3⟩
    · rw [hfe, h2] at h1; exact lt_irrefl 0 h1
    · rw [hfe] at h3; exact lt_irrefl _ h3
  · intro acc fp hfe
    unfold maxPriceStep
    rw [if_neg (by rw [hfe]; exact lt_irrefl _)]
  · intro f acc fp hz hpos
    unfold minPosStep
    rw [if_pos ⟨hpos, Or.inl hz⟩]

/-- C2 witness: a concrete two-plan report, with the positive-price
hypothesis discharged at `fpW1`. -/
theorem createDailyReport_market_invariants_witness :
    (0 : ℚ) < fpW1.price ∧
    ∃ r, createDailyReport "2025-01-01T12:00:00.000Z" "Wed Jan 01 2025" [] [fpW1, fpW2] = some r ∧
      r.marketSummary.cheapestUnit.price ≤ fpW1.price := by
  obtain ⟨r, hr⟩ : ∃ r,
      createDailyReport "2025-01-01T12:00:00.000Z" "Wed Jan 01 2025" [] [fpW1, fpW2] = some r :=
    ⟨_, rfl⟩
  exact ⟨by decide, r, hr,
    (createDailyReport_market_invariants "2025-01-01T12:00:00.000Z" "Wed Jan 01 2025" []
      fpW1 [fpW2] r hr).1 fpW1 (List.mem_cons_self _ _) (by decide)⟩

/-- C5: when some entry has a positive price, the summary's price range
is drawn from positive-price entries only, its min does not exceed its
max, and zero-price entries are still counted in `totalFloorPlans`. -/
theorem createPropertySummary_priceRange_sound (name : String) (plans : List FloorPlan)
    (hp : ∃ fp ∈ plans, 0 < fp.price) :
    (∃ a ∈ plans, 0 < a.price ∧
      (createPropertySummary name plans).priceRange.min = JsNum.finite a.price) ∧
    (∃ b ∈ plans, 0 < b.price ∧
      (createPropertySummary name plans).priceRange.max = JsNum.finite b.price) ∧
    (∀ qa qb, (createPropertySummary name plans).priceRange.min = JsNum.finite qa →
      (createPropertySummary name plans).priceRange.max = JsNum.finite qb → qa ≤ qb) ∧
    (createPropertySummary name plans).totalFloorPlans = plans.length := by
  obtain ⟨fp0, hmem0, hpos0⟩ := hp
  have hmemp : fp0.price ∈ (plans.map (fun fp => fp.price)).filter (fun p => 0 < p) := by
    rw [List.mem_filter]
    exact ⟨List.mem_map_of_mem _ hmem0, by simpa using hpos0⟩
  obtain ⟨x, xs, hxe⟩ : ∃ x xs,
      (plans.map (fun fp => fp.price)).filter (fun p => 0 < p) = x :: xs := by
    cases hcc : (plans.map (fun fp => fp.price)).filter (fun p => 0 < p) with
    | nil => rw [hcc] at hmemp; exact absurd hmemp (List.not_mem_nil _)
    | cons x xs => exact ⟨x, xs, rfl⟩
  have hmem_of : ∀ q ∈ x :: xs, ∃ a ∈ plans, 0 < a.price ∧ q = a.price := by
    intro q hq
    rw [← hxe, List.mem_filter] at hq
    obtain ⟨hq1, hq2⟩ := hq
    obtain ⟨a, ha, rfl⟩ := List.mem_map.mp hq1
    exact ⟨a, ha, by simpa using hq2, rfl⟩
  have hmin : (createPropertySummary name plans).priceRange.min =
      JsNum.finite (xs.foldl min x) := by
    show jsMinList ((plans.map (fun fp => fp.price)).filter (fun p => 0 < p)) = _
    rw [hxe]
    rfl
  have hmax : (createPropertySummary name plans).priceRange.max =
      JsNum.finite (xs.foldl max x) := by
    show jsMaxList ((plans.map (fun fp => fp.price)).filter (fun p => 0 < p)) = _
    rw [hxe]
    rfl
  refine ⟨?_, ?_, ?_, rfl⟩
  · obtain ⟨a, ha, hap, hq⟩ := hmem_of (xs.foldl min x) (foldl_min_mem x xs)
    exact ⟨a, ha, hap, by rw [hmin, hq]⟩
  · obtain ⟨b, hb, hbp, hq⟩ := hmem_of (xs.foldl max x) (foldl_max_mem x xs)
    exact ⟨b, hb, hbp, by rw [hmax, hq]⟩
  · intro qa qb ha hb
    rw [hmin] at ha
    rw [hmax] at hb
    obtain rfl := JsNum.finite.inj ha.symm
    obtain rfl := JsNum.finite.inj hb.symm
    exact foldl_min_le x xs _ (foldl_max_mem x xs)

/-- C5 witness: the positive-price hypothesis discharged on a concrete
two-plan list containing a zero-price entry. -/
theorem createPropertySummary_priceRange_sound_witness :
    (0 : ℚ) < fpW1.price ∧
    (∃ a ∈ [fpW1, fpZ], 0 < a.price ∧
      (createPropertySummary "Camden Dunwoody" [fpW1, fpZ]).priceRange.min =
        JsNum.finite a.price) ∧
    (createPropertySummary "Camden Dunwoody" [fpW1, fpZ]).totalFloorPlans = 2 := by
  have h := createPropertySummary_priceRange_sound "Camden Dunwoody" [fpW1, fpZ]
    ⟨fpW1, List.mem_cons_self _ _, by decide⟩
  exact ⟨by decide, h.1, h.2.2.2⟩

/-- C9: `createDailyReport` throws on the empty list (modelled as `none`,
from the initializer-free `reduce` calls) and returns a report on every
non-empty list; the entry point's aggregation phase produces a report
exactly when at least one floor plan was collected, because it returns
early on an empty collection. -/
theorem createDailyReport_empty_throws :
    (∀ nowIso nowDateStr s, createDailyReport nowIso nowDateStr s [] = none) ∧
    (∀ nowIso nowDateStr s (p : FloorPlan) (ps : List FloorPlan),
      (createDailyReport nowIso nowDateStr s (p :: ps)).isSome = true) ∧
    (∀ nowIso nowDateStr (plans : List FloorPlan),
      (mainAggregate nowIso nowDateStr plans).isSome = true ↔ plans ≠ []) := by
  refine ⟨fun _ _ _ => rfl, fun _ _ _ _ _ => rfl, ?_⟩
  intro nowIso nowDateStr plans
  cases plans with
  | nil => simp [mainAggregate]
  | cons p ps =>
    constructor
    · intro _; exact List.cons_ne_nil _ _
    · intro _
      show (mainAggregate nowIso nowDateStr (p :: ps)).isSome = true
      rw [mainAggregate, if_neg (by simp)]
      rfl

/-- C9 witness: the empty and a singleton collection. -/
theorem createDailyReport_empty_throws_witness :
    createDailyReport "2025-01-01T12:00:00.000Z" "Wed" [] [] = none ∧
    (mainAggregate "2025-01-01T12:00:00.000Z" "Wed" [fpW1]).isSome = true :=
  ⟨createDailyReport_empty_throws.1 _ _ _,
   (createDailyReport_empty_throws.2.2 "2025-01-01T12:00:00.000Z" "Wed" [fpW1]).mpr
     (List.cons_ne_nil _ _)⟩

/-- C10: when no entry has a positive price, the summary's price range is
the sentinel pair `(+Infinity, -Infinity)` (so max < min under the
JavaScript order), and when no entry has a positive price per square
foot the average is `NaN`. -/
theorem createPropertySummary_zero_candidates (name : String) (plans : List FloorPlan) :
    (plans ≠ [] → (∀ fp ∈ plans, fp.price ≤ 0) →
      (createPropertySummary name plans).priceRange.min = JsNum.posInf ∧
      (createPropertySummary name plans).priceRange.max = JsNum.negInf ∧
      jsLt (createPropertySummary name plans).priceRange.max
        (createPropertySummary name plans).priceRange.min = true) ∧
    ((∀ fp ∈ plans, fp.pricePerSqFt ≤ 0) →
      (createPropertySummary name plans).avgPricePerSqFt = JsNum.nan) := by
  have hfil : ∀ g : FloorPlan → ℚ, (∀ fp ∈ plans, g fp ≤ 0) →
      (plans.map g).filter (fun p => 0 < p) = [] := by
    intro g hg
    rw [List.filter_eq_nil_iff]
    intro q hq
    obtain ⟨fp, hfp, rfl⟩ := List.mem_map.mp hq
    simpa using not_lt.mpr (hg fp hfp)
  constructor
  · intro _ hp
    have h := hfil (fun fp => fp.price) hp
    refine ⟨?_, ?_, ?_⟩
    · show jsMinList ((plans.map (fun fp => fp.price)).filter (fun p => 0 < p)) = _
      rw [h]; rfl
    · show jsMaxList ((plans.map (fun fp => fp.price)).filter (fun p => 0 < p)) = _
      rw [h]; rfl
    · show jsLt (jsMaxList ((plans.map (fun fp => fp.price)).filter (fun p => 0 < p)))
        (jsMinList ((plans.map (fun fp => fp.price)).filter (fun p => 0 < p))) = true
      rw [h]; rfl
  · intro hp
    have h := hfil (fun fp => fp.pricePerSqFt) hp
    show jsAvg2 ((plans.map (fun fp => fp.pricePerSqFt)).filter (fun p => 0 < p)) = _
    rw [h]; rfl

/-- C10 witness: a singleton list whose entry has price 0. -/
theorem createPropertySummary_zero_candidates_witness :
    (createPropertySummary "Camden Dunwoody" [fpZ]).priceRange.min = JsNum.posInf ∧
    (createPropertySummary "Camden Dunwoody" [fpZ]).priceRange.max = JsNum.negInf ∧
    (createPropertySummary "Camden Dunwoody" [fpZ]).avgPricePerSqFt = JsNum.nan := by
  have hz1 : ∀ fp ∈ [fpZ], fp.price ≤ 0 := by
    intro fp hm
    rw [List.mem_singleton] at hm
    subst hm
    decide
  have hz2 : ∀ fp ∈ [fpZ], fp.pricePerSqFt ≤ 0 := by
    intro fp hm
    rw [List.mem_singleton] at hm
    subst hm
    decide
  have h := createPropertySummary_zero_candidates "Camden Dunwoody" [fpZ]
  have h1 := h.1 (List.cons_ne_nil _ _) hz1
  exact ⟨h1.1, h1.2.1, h.2 hz2⟩

/-- C4 counterexample: `createDailyReport` reads the system clock for its
date stamp, so two calls on the same `(propertySummaries, allFloorPlans)`
arguments made on different days yield reports that differ (in the date
field), refuting "identical field for field including the date stamp". -/
theorem createDailyReport_rerun_changes_date :
    createDailyReport "2025-01-01T12:00:00.000Z" "Wed Jan 01 2025" [] [fpW1] ≠
      createDailyReport "2025-01-02T12:00:00.000Z" "Thu Jan 02 2025" [] [fpW1] ∧
    (createDailyReport "2025-01-01T12:00:00.000Z" "Wed Jan 01 2025" [] [fpW1]).map
      (fun r => r.date) = some "2025-01-01" ∧
    (createDailyReport "2025-01-02T12:00:00.000Z" "Thu Jan 02 2025" [] [fpW1]).map
      (fun r => r.date) = some "2025-01-02" := by
  refine ⟨?_, ?_, ?_⟩ <;> decide

/-- C4 amended: `createPropertySummary` takes no clock input, and
`createDailyReport` is deterministic in its arguments and the clock
reading: two calls on the same `(propertySummaries, allFloorPlans)`
agree on every field except possibly the date stamp, and agree entirely
whenever the two clock readings fall on the same UTC date. -/
theorem createDailyReport_deterministic_up_to_date (iso1 fb1 iso2 fb2 : String)
    (s : List PropertySummary) (l : List FloorPlan) (r1 r2 : DailyReport)
    (h1 : createDailyReport iso1 fb1 s l = some r1)
    (h2 : createDailyReport iso2 fb2 s l = some r2) :
    r1.properties = r2.properties ∧ r1.allFloorPlans = r2.allFloorPlans ∧
    r1.marketSummary = r2.marketSummary ∧
    (dateOf iso1 fb1 = dateOf iso2 fb2 → r1 = r2) := by
  cases l with
  | nil => exact absurd h1 (by rw [createDailyReport]; exact Option.noConfusion)
  | cons p ps =>
    obtain rfl := Option.some.inj h1
    obtain rfl := Option.some.inj h2
    refine ⟨rfl, rfl, rfl, ?_⟩
    intro hd
    show DailyReport.mk (dateOf iso1 fb1) _ _ _ = DailyReport.mk (dateOf iso2 fb2) _ _ _
    rw [hd]

/-- C4 witness: two calls with distinct clock readings on the same UTC
date produce equal reports. -/
theorem createDailyReport_deterministic_up_to_date_witness :
    ∃ r1 r2,
      createDailyReport "2025-01-01T08:00:00.000Z" "Wed Jan 01 2025" [] [fpW1] = some r1 ∧
      createDailyReport "2025-01-01T23:59:59.000Z" "Wed Jan 01 2025" [] [fpW1] = some r2 ∧
      r1 = r2 := by
  obtain ⟨r1, h1⟩ : ∃ r1,
      createDailyReport "2025-01-01T08:00:00.000Z" "Wed Jan 01 2025" [] [fpW1] = some r1 :=
    ⟨_, rfl⟩
  obtain ⟨r2, h2⟩ : ∃ r2,
      createDailyReport "2025-01-01T23:59:59.000Z" "Wed Jan 01 2025" [] [fpW1] = some r2 :=
    ⟨_, rfl⟩
  exact ⟨r1, r2, h1, h2,
    (createDailyReport_deterministic_up_to_date "2025-01-01T08:00:00.000Z" "Wed Jan 01 2025"
      "2025-01-01T23:59:59.000Z" "Wed Jan 01 2025" [] [fpW1] r1 r2 h1 h2).2.2.2 (by decide)⟩

/-- C7 counterexample: not every extraction error yields the empty list.
A Camden amenities failure is caught by the inner recovery (camden.ts)
and the scrape still returns its extracted card, and a Columns
per-element failure is caught by the element loop (columns source)
which skips only that element — both extractors return non-empty lists
although an error was raised during extraction. -/
theorem scraper_extraction_error_nonempty :
    camdenEnvPartial.amenities = Except.error "amenities click failed" ∧
    scrapeCamden camdenEnvPartial ≠ [] ∧
    elBad.textContent = Except.error "element is stale" ∧
    scrapeColumns columnsEnvPartial ≠ [] := by
  refine ⟨rfl, ?_, rfl, ?_⟩ <;> decide

/-- C7 amended: no error raised during navigation or extraction ever
propagates past an extractor's boundary (both extractors are total
functions into floor-plan lists).  An error that surfaces from the
navigation-and-extraction body reaches the outer `catch` and yields the
empty list for that site; but an error absorbed at an inner recovery
point does not empty the result: a Camden amenities failure only
degrades the community-amenity list (the scrape proceeds as if it were
empty), and a Columns per-element failure only skips that element. -/
theorem scraper_error_containment (envC : CamdenEnv) (envCo : ColumnsEnv)
    (acc : List RawPlan) (el : ColumnsElement) (e f g h : String) :
    (camdenBody envC = Except.error e → scrapeCamden envC = []) ∧
    (columnsBody envCo = Except.error f → scrapeColumns envCo = []) ∧
    (envC.amenities = Except.error g →
      scrapeCamden envC = scrapeCamden { envC with amenities := Except.ok [] }) ∧
    (columnsElementBody el = Except.error h → processElement acc el = acc) := by
  refine ⟨?_, ?_, ?_, ?_⟩
  · intro hb
    rw [scrapeCamden, hb]
  · intro hb
    rw [scrapeColumns, hb]
  · intro hg
    have hext : extractCamdenFloorPlans envC =
        extractCamdenFloorPlans { envC with amenities := Except.ok [] } := by
      unfold extractCamdenFloorPlans
      rw [hg]
    unfold scrapeCamden camdenBody
    simp only [hext]
  · intro hb
    rw [processElement, hb]

/-- C7 witness: the outer-boundary hypotheses discharged on the failing
navigation environments, and the inner-recovery hypotheses on the
amenities-failure environment and the stale element. -/
theorem scraper_error_containment_witness :
    scrapeCamden camdenEnvFail = [] ∧
    scrapeColumns columnsEnvFail = [] ∧
    scrapeCamden camdenEnvPartial =
      scrapeCamden { camdenEnvPartial with amenities := Except.ok [] } ∧
    processElement [] elBad = [] :=
  ⟨(scraper_error_containment camdenEnvFail columnsEnvFail [] elBad
      "net::ERR_TIMED_OUT" "x" "y" "z").1 rfl,
   (scraper_error_containment camdenEnvFail columnsEnvFail [] elBad
      "x" "Timeout 30000ms exceeded" "y" "z").2.1 rfl,
   (scraper_error_containment camdenEnvPartial columnsEnvFail [] elBad
      "x" "y" "amenities click failed" "z").2.2.1 rfl,
   (scraper_error_containment camdenEnvPartial columnsEnvFail [] elBad
      "x" "y" "z" "element is stale").2.2.2 rfl⟩

/-- C8: when the filesystem write inside `saveDailyReport` or
`saveScrapingResult` fails, the storage service re-raises that same
error to its caller (after logging). -/
theorem storage_save_error_reraised (env : FsEnv) (svc : StorageService)
    (report : DailyReport) (result : ScrapingResult) (e f : String) :
    (ensureDataDirectory env svc = Except.ok () →
      env.writeFile (pricesFile svc) (env.stringifyReport report) = Except.error e →
      saveDailyReport env svc report = Except.error e) ∧
    (ensureDataDirectory env svc = Except.ok () →
      env.writeFile (scrapingFilePath env svc result) (env.stringifyResult result) =
        Except.error f →
      saveScrapingResult env svc result = Except.error f) := by
  constructor
  · intro h1 h2
    rw [saveDailyReport, h1, h2]
  · intro h1 h2
    rw [saveScrapingResult, h1, h2]

/-- C8 witness: a filesystem whose writes fail with `ENOSPC` makes both
save operations surface exactly that error. -/
theorem storage_save_error_reraised_witness :
    saveDailyReport fsEnvFail svcW reportW = Except.error "ENOSPC" ∧
    saveScrapingResult fsEnvFail svcW resultW = Except.error "ENOSPC" :=
  ⟨(storage_save_error_reraised fsEnvFail svcW reportW resultW "ENOSPC" "ENOSPC").1 rfl rfl,
   (storage_save_error_reraised fsEnvFail svcW reportW resultW "ENOSPC" "ENOSPC").2 rfl rfl⟩

end LeaseWatch
